import Mathlib

/-!
Verification of the Http-Server repository (src/main.go).

The Go program is a small HTTP service over an in-memory `map[int]Item`:
`handleCreateItem` (POST /items), `handleGetItem` (GET /items/{id}),
`handleChangeItem` (PUT /items/{id}) and `handleSlow` (GET /slow), plus a
graceful-shutdown lifecycle in `main`.

Shallow embedding choices:
- Go `int` is embedded as `Int` (no arithmetic is performed on ids or ages,
  so 64-bit overflow never matters).
- The Go map `map[int]Item` is embedded as an association list whose
  observable behaviour (`get` = map index, `put` = map assignment,
  `contains` = the comma-ok existence check) matches Go map semantics:
  `put` conses the new binding in front and `get` finds the newest binding.
- JSON bodies are embedded as an inductive `Json` value; `decodeItem`
  mirrors `encoding/json`'s decoding of an object into the `Item` struct
  (unknown keys ignored, absent keys keep the zero value, `null` leaves the
  zero value, a type mismatch or a non-object/non-null document is an
  error).  `encodeItem` mirrors `json.Marshal` of `Item` (fields in struct
  declaration order with the tag names `id`, `name`, `age`).
- `strconv.Atoi` is embedded as `atoi` (optional sign followed by at least
  one decimal digit; the int64 range check is omitted, no claim exercises
  it).
- HTTP responses are embedded as a status code plus a body that is either
  a JSON document or plain text (the `http.Error` branches).
-/

/-- The `Item` struct of src/main.go: `ID int`, `Name string`, `Age int`,
with JSON tags `id`, `name`, `age`. -/
structure Item where
  id : Int
  name : String
  age : Int
deriving DecidableEq, Repr

/-- A JSON document, as far as the decoding of an `Item` can observe it. -/
inductive Json where
  | null : Json
  | bool (b : Bool) : Json
  | num (n : Int) : Json
  | str (s : String) : Json
  | arr (elems : List Json) : Json
  | obj (fields : List (String × Json)) : Json

/-- `json.Marshal` applied to an `Item`: an object with the struct's fields
in declaration order under their tag names. -/
def encodeItem (it : Item) : Json :=
  .obj [("id", .num it.id), ("name", .str it.name), ("age", .num it.age)]

/-- One step of `encoding/json` object decoding into an `Item`: assign the
value at key `k` to the matching struct field (error on type mismatch),
ignore unknown keys. -/
def decodeField (it : Item) (k : String) (v : Json) : Option Item :=
  if k = "id" then
    match v with
    | .num n => some { it with id := n }
    | _ => none
  else if k = "name" then
    match v with
    | .str s => some { it with name := s }
    | _ => none
  else if k = "age" then
    match v with
    | .num n => some { it with age := n }
    | _ => none
  else
    some it

/-- `json.NewDecoder(r.Body).Decode(&item)` on a single JSON document: an
object assigns its keys in order onto the zero-valued `Item` (absent keys
keep the zero value), `null` leaves the zero value, and any other document
is a decode error. -/
def decodeItem : Json → Option Item
  | .obj fields => fields.foldlM (fun it kv => decodeField it kv.1 kv.2) ⟨0, "", 0⟩
  | .null => some ⟨0, "", 0⟩
  | _ => none

/-- The in-memory datastore `map[int]Item`, as an association list: the
newest binding for a key is the visible one. -/
abbrev Datastore := List (Int × Item)

/-- Go map indexing `s.datastore[id]` (the value part). -/
def storeGet (d : Datastore) (id : Int) : Option Item :=
  d.lookup id

/-- The comma-ok existence check `_, found := s.datastore[id]`. -/
def storeContains (d : Datastore) (id : Int) : Bool :=
  (storeGet d id).isSome

/-- Go map assignment `s.datastore[id] = it`: inserts or overwrites. -/
def storePut (d : Datastore) (id : Int) (it : Item) : Datastore :=
  (id, it) :: d

/-- `strconv.Atoi` on the digit part: fold decimal digits, error on any
non-digit. -/
def digitsToNat : List Char → Option Nat
  | [] => none
  | cs => cs.foldlM (fun acc c =>
      if c.isDigit then some (acc * 10 + (c.toNat - '0'.toNat)) else none) 0

/-- `strconv.Atoi`: optional `+`/`-` sign followed by at least one decimal
digit; anything else is an error.  (The int64 range check of the Go
function is not modelled; no claim exercises it.) -/
def atoi (s : String) : Option Int :=
  match s.toList with
  | '+' :: rest => (digitsToNat rest).map Int.ofNat
  | '-' :: rest => (digitsToNat rest).map (fun n => -(n : Int))
  | cs => (digitsToNat cs).map Int.ofNat

/-- A response body: either a JSON document (written by
`json.NewEncoder(w).Encode`) or plain text (written by `http.Error` or
`fmt.Fprintf`). -/
inductive Body where
  | json (j : Json) : Body
  | text (s : String) : Body

/-- An HTTP response as the handlers produce it: status code and body. -/
structure Response where
  status : Nat
  body : Body

/-- `handleCreateItem` (src/main.go:78-114): decode the body (400 on
failure), 409 if the decoded id is already present, otherwise store the
item and answer 201 with the stored item encoded back. -/
def handleCreateItem (d : Datastore) (body : Json) : Datastore × Response :=
  match decodeItem body with
  | none => (d, ⟨400, .text "Bad request: invalid JSON"⟩)
  | some newItem =>
    if storeContains d newItem.id then
      (d, ⟨409, .text ("Error: ID " ++ toString newItem.id ++ " already in use")⟩)
    else
      (storePut d newItem.id newItem, ⟨201, .json (encodeItem newItem)⟩)

/-- `handleGetItem` (src/main.go:117-144): parse the path id (400 on
failure), 404 if absent, otherwise 200 with the stored item encoded. -/
def handleGetItem (d : Datastore) (idStr : String) : Response :=
  match atoi idStr with
  | none => ⟨400, .text "Invalid item ID"⟩
  | some id =>
    match storeGet d id with
    | none => ⟨404, .text "Item not found"⟩
    | some item => ⟨200, .json (encodeItem item)⟩

/-- `handleChangeItem` (src/main.go:147-185): parse the path id (400 on
failure), 404 if no record exists at that id, decode the body (400 on
failure), then force the decoded item's id to the path id, store it under
the path id and answer 200 with the stored item encoded. -/
def handleChangeItem (d : Datastore) (idStr : String) (body : Json) :
    Datastore × Response :=
  match atoi idStr with
  | none => (d, ⟨400, .text "Invalid item ID"⟩)
  | some id =>
    if storeContains d id then
      match decodeItem body with
      | none => (d, ⟨400, .text "Bad request: invalid JSON"⟩)
      | some updatedItem =>
        let stored : Item := { updatedItem with id := id }
        (storePut d id stored, ⟨200, .json (encodeItem stored)⟩)
    else
      (d, ⟨404, .text "Item not found"⟩)

/-- `handleSlow` (src/main.go:68-75): after the artificial delay, answer
200 with a plain-text body.  (The 10-second sleep itself is modelled in
the lifecycle section below.) -/
def handleSlow : Response :=
  ⟨200, .text "Finally, I am done."⟩

/-- An HTTP method, as far as the registered routes can distinguish them. -/
inductive Method where
  | GET : Method
  | POST : Method
  | PUT : Method
  | other (s : String) : Method
deriving DecidableEq, Repr

/-- An inbound request: method, path split into segments, and body. -/
structure Request where
  method : Method
  path : List String
  body : Json

/-- The chi router as configured by `routes` (src/main.go:57-66):
`POST /items`, `GET /items/{id}`, `PUT /items/{id}`, `GET /slow`; a path
that matches a template with a different method gets chi's 405 default and
anything else its 404 default (default bodies abbreviated). -/
def route (d : Datastore) (req : Request) : Datastore × Response :=
  match req.method, req.path with
  | .POST, ["items"] => handleCreateItem d req.body
  | .GET, ["items", idStr] => (d, handleGetItem d idStr)
  | .PUT, ["items", idStr] => handleChangeItem d idStr req.body
  | .GET, ["slow"] => (d, handleSlow)
  | _, ["items"] => (d, ⟨405, .text "Method Not Allowed"⟩)
  | _, ["items", _] => (d, ⟨405, .text "Method Not Allowed"⟩)
  | _, ["slow"] => (d, ⟨405, .text "Method Not Allowed"⟩)
  | _, _ => (d, ⟨404, .text "404 page not found"⟩)

/-- A log entry recorded by the logging middleware: method and path. -/
abbrev LogEntry := Method × List String

/-- Modelled from the spec: the logging middleware ("Wraps every request:
records method, path ... before dispatch", "a pass-through decorator: it
never alters the response, never short-circuits a request based on
content, and runs exactly once per request") is described in the spec and
the repository README but no middleware registration appears in
src/main.go's `routes`.  It is modelled as a decorator that records one
(method, path) entry before invoking the wrapped handler and passes the
handler's store and response through unchanged. -/
def loggingMiddleware (next : Request → Datastore → Datastore × Response)
    (req : Request) (st : Datastore × List LogEntry) :
    (Datastore × List LogEntry) × Response :=
  let log : List LogEntry := st.2 ++ [(req.method, req.path)]
  let r := next req st.1
  ((r.1, log), r.2)

/-- The full request pipeline: the logging middleware wrapped around the
router dispatch (middleware modelled from the spec, router from
src/main.go). -/
def serve (req : Request) (st : Datastore × List LogEntry) :
    (Datastore × List LogEntry) × Response :=
  loggingMiddleware (fun r d => route d r) req st

/-- Process a sequence of inbound requests, threading store and log. -/
def runRequests : List Request → Datastore × List LogEntry → Datastore × List LogEntry
  | [], st => st
  | req :: rs, st => runRequests rs (serve req st).1

/-- The drain budget of `main` (src/main.go:222):
`context.WithTimeout(context.Background(), 5*time.Second)`, in seconds. -/
def drainTimeout : Nat := 5

/-- The artificial delay of `handleSlow` (src/main.go:71):
`time.Sleep(10 * time.Second)`, in seconds. -/
def slowDelay : Nat := 10

/-- The two ways `main` can end after the shutdown signal:
`"Server exited gracefully"` or `logger.Fatalf("Server forced to shutdown")`. -/
inductive LifecycleOutcome where
  | Stopped : LifecycleOutcome
  | ForcedShutdown : LifecycleOutcome
deriving DecidableEq, Repr

/-- Modelled from the spec: the drain phase `srv.Shutdown(ctx)`
(src/main.go:229) waits for in-flight requests bounded by the context's
timeout; its waiting semantics lives in Go's net/http, not in src/.  Each
in-flight request is abstracted to its remaining duration in seconds: if
every one finishes within the budget the server reaches `Stopped`
("Server exited gracefully"), otherwise the timeout elapses first and
`main` treats it as fatal (`Fatalf("Server forced to shutdown")`). -/
def drain (budget : Nat) (inflight : List Nat) : LifecycleOutcome :=
  if inflight.all (fun t => t ≤ budget) then .Stopped else .ForcedShutdown

/-! ## Helper lemmas about the datastore -/

theorem storeGet_storePut (d : Datastore) (id k : Int) (it : Item) :
    storeGet (storePut d id it) k = if k = id then some it else storeGet d k := by
  by_cases h : k = id
  · subst h
    simp [storeGet, storePut, List.lookup]
  · have hb : (k == id) = false := beq_eq_false_iff_ne.mpr h
    simp [storeGet, storePut, List.lookup, h, hb]

theorem storeContains_storePut_true (d : Datastore) (i k : Int) (it : Item)
    (h : storeContains d k = true) : storeContains (storePut d i it) k = true := by
  by_cases hk : k = i <;> simp [storeContains, storeGet_storePut, hk]
  exact h

/-- The datastore a create leaves behind is the old one or a single `put`. -/
theorem handleCreateItem_store (d : Datastore) (b : Json) :
    (handleCreateItem d b).1 = d ∨
    ∃ i it, (handleCreateItem d b).1 = storePut d i it := by
  unfold handleCreateItem
  split
  · exact Or.inl rfl
  · split
    · exact Or.inl rfl
    · exact Or.inr ⟨_, _, rfl⟩

/-- The datastore an update leaves behind is the old one or a single `put`. -/
theorem handleChangeItem_store (d : Datastore) (idStr : String) (b : Json) :
    (handleChangeItem d idStr b).1 = d ∨
    ∃ i it, (handleChangeItem d idStr b).1 = storePut d i it := by
  unfold handleChangeItem
  split
  · exact Or.inl rfl
  · split
    · split
      · exact Or.inl rfl
      · exact Or.inr ⟨_, _, rfl⟩
    · exact Or.inl rfl

/-- The datastore after any routed request is the old one or a single `put`. -/
theorem route_store (d : Datastore) (req : Request) :
    (route d req).1 = d ∨ ∃ i it, (route d req).1 = storePut d i it := by
  unfold route
  split
  · exact handleCreateItem_store d req.body
  · exact Or.inl rfl
  · exact handleChangeItem_store d _ req.body
  all_goals exact Or.inl rfl

theorem runRequests_append (xs ys : List Request) (st : Datastore × List LogEntry) :
    runRequests (xs ++ ys) st = runRequests ys (runRequests xs st) := by
  induction xs generalizing st with
  | nil => rfl
  | cons r rs ih => simp [runRequests, ih]

/-! ## Claim theorems -/

/-- C7: for every record r, decoding the JSON produced by encoding r yields
exactly r: `decodeItem (encodeItem r) = some r` over the Record shape
with keys id, name, age. -/
theorem decodeItem_encodeItem (r : Item) : decodeItem (encodeItem r) = some r := rfl

/-- C1: for every valid record r (a body decoding to r) whose id is not in
the store, create answers 201 echoing r exactly (including the
caller-supplied id), and a subsequent read of r.id answers 200 with
exactly r. -/
theorem create_then_read (d : Datastore) (b : Json) (r : Item) (idStr : String)
    (hdec : decodeItem b = some r) (hfree : storeContains d r.id = false)
    (hid : atoi idStr = some r.id) :
    (handleCreateItem d b).2 = ⟨201, .json (encodeItem r)⟩ ∧
    handleGetItem (handleCreateItem d b).1 idStr = ⟨200, .json (encodeItem r)⟩ := by
  have hc : handleCreateItem d b =
      (storePut d r.id r, ⟨201, .json (encodeItem r)⟩) := by
    simp [handleCreateItem, hdec, hfree]
  rw [hc]
  refine ⟨rfl, ?_⟩
  simp [handleGetItem, hid, storeGet_storePut]

/-- Witness for C1: r = ⟨101, "Alice", 30⟩ on the empty store. -/
theorem create_then_read_holds :
    decodeItem (encodeItem ⟨101, "Alice", 30⟩) = some ⟨101, "Alice", 30⟩ ∧
    storeContains [] ((⟨101, "Alice", 30⟩ : Item).id) = false ∧
    atoi "101" = some ((⟨101, "Alice", 30⟩ : Item).id) ∧
    ((handleCreateItem [] (encodeItem ⟨101, "Alice", 30⟩)).2 =
        ⟨201, .json (encodeItem ⟨101, "Alice", 30⟩)⟩ ∧
      handleGetItem (handleCreateItem [] (encodeItem ⟨101, "Alice", 30⟩)).1 "101" =
        ⟨200, .json (encodeItem ⟨101, "Alice", 30⟩)⟩) :=
  ⟨rfl, rfl, rfl, create_then_read [] _ ⟨101, "Alice", 30⟩ "101" rfl rfl rfl⟩

/-- C2: a successful update on path id k with a body decoding to r' (even
with r'.id different from k) stores the full record under key k with its
id field forced to k, and echoes the stored record with 200. -/
theorem update_path_id_wins (d : Datastore) (idStr : String) (k : Int) (b : Json)
    (r' : Item) (hid : atoi idStr = some k) (hex : storeContains d k = true)
    (hdec : decodeItem b = some r') (hne : r'.id ≠ k) :
    (handleChangeItem d idStr b).2 = ⟨200, .json (encodeItem { r' with id := k })⟩ ∧
    storeGet (handleChangeItem d idStr b).1 k = some { r' with id := k } := by
  have hc : handleChangeItem d idStr b =
      (storePut d k { r' with id := k },
        ⟨200, .json (encodeItem { r' with id := k })⟩) := by
    simp [handleChangeItem, hid, hex, hdec]
  rw [hc]
  exact ⟨rfl, by simp [storeGet_storePut]⟩

/-- Witness for C2: path id 1, body record ⟨7, "Bob", 2⟩, store holding
key 1. -/
theorem update_path_id_wins_holds :
    atoi "1" = some 1 ∧
    storeContains [((1 : Int), ⟨1, "x", 1⟩)] 1 = true ∧
    decodeItem (encodeItem ⟨7, "Bob", 2⟩) = some ⟨7, "Bob", 2⟩ ∧
    (⟨7, "Bob", 2⟩ : Item).id ≠ 1 ∧
    ((handleChangeItem [((1 : Int), ⟨1, "x", 1⟩)] "1" (encodeItem ⟨7, "Bob", 2⟩)).2 =
        ⟨200, .json (encodeItem ⟨1, "Bob", 2⟩)⟩ ∧
      storeGet (handleChangeItem [((1 : Int), ⟨1, "x", 1⟩)] "1"
          (encodeItem ⟨7, "Bob", 2⟩)).1 1 = some ⟨1, "Bob", 2⟩) :=
  ⟨rfl, rfl, rfl, by decide,
    update_path_id_wins [((1 : Int), ⟨1, "x", 1⟩)] "1" 1 _ ⟨7, "Bob", 2⟩ rfl rfl rfl
      (by decide)⟩

/-- C3: create on an empty slot followed by a second create with the same
id answers 409 on the second call and leaves the store holding the first
record unchanged. -/
theorem create_duplicate_conflict (d : Datastore) (b b' : Json) (r r' : Item)
    (hdec : decodeItem b = some r) (hdec' : decodeItem b' = some r')
    (hsame : r'.id = r.id) (hfree : storeContains d r.id = false) :
    (handleCreateItem (handleCreateItem d b).1 b').2.status = 409 ∧
    (handleCreateItem (handleCreateItem d b).1 b').1 = (handleCreateItem d b).1 ∧
    storeGet (handleCreateItem (handleCreateItem d b).1 b').1 r.id = some r := by
  have h1 : (handleCreateItem d b).1 = storePut d r.id r := by
    simp [handleCreateItem, hdec, hfree]
  have h2 : storeContains (storePut d r.id r) r'.id = true := by
    simp [storeContains, storeGet_storePut, hsame]
  have h3 : handleCreateItem (storePut d r.id r) b' =
      (storePut d r.id r,
        ⟨409, .text ("Error: ID " ++ toString r'.id ++ " already in use")⟩) := by
    simp [handleCreateItem, hdec', h2]
  rw [h1, h3]
  exact ⟨rfl, rfl, by simp [storeGet_storePut]⟩

/-- Witness for C3: both creates carry id 5, on the empty store. -/
theorem create_duplicate_conflict_holds :
    decodeItem (encodeItem ⟨5, "a", 1⟩) = some ⟨5, "a", 1⟩ ∧
    decodeItem (encodeItem ⟨5, "b", 2⟩) = some ⟨5, "b", 2⟩ ∧
    (⟨5, "b", 2⟩ : Item).id = (⟨5, "a", 1⟩ : Item).id ∧
    storeContains [] ((⟨5, "a", 1⟩ : Item).id) = false ∧
    ((handleCreateItem (handleCreateItem [] (encodeItem ⟨5, "a", 1⟩)).1
        (encodeItem ⟨5, "b", 2⟩)).2.status = 409 ∧
      (handleCreateItem (handleCreateItem [] (encodeItem ⟨5, "a", 1⟩)).1
          (encodeItem ⟨5, "b", 2⟩)).1 = (handleCreateItem [] (encodeItem ⟨5, "a", 1⟩)).1 ∧
      storeGet (handleCreateItem (handleCreateItem [] (encodeItem ⟨5, "a", 1⟩)).1
          (encodeItem ⟨5, "b", 2⟩)).1 ((⟨5, "a", 1⟩ : Item).id) = some ⟨5, "a", 1⟩) :=
  ⟨rfl, rfl, rfl, rfl,
    create_duplicate_conflict [] _ _ ⟨5, "a", 1⟩ ⟨5, "b", 2⟩ rfl rfl rfl rfl⟩

/-- C4: an update on an id that is absent from the store answers 404 and
leaves the store exactly as it was (update never creates). -/
theorem update_missing_not_found (d : Datastore) (idStr : String) (k : Int)
    (b : Json) (hid : atoi idStr = some k) (habs : storeContains d k = false) :
    handleChangeItem d idStr b = (d, ⟨404, .text "Item not found"⟩) := by
  simp [handleChangeItem, hid, habs]

/-- Witness for C4: update of id 999 on the empty store. -/
theorem update_missing_not_found_holds :
    atoi "999" = some 999 ∧
    storeContains [] (999 : Int) = false ∧
    handleChangeItem [] "999" (encodeItem ⟨999, "z", 1⟩) =
      ([], ⟨404, .text "Item not found"⟩) :=
  ⟨rfl, rfl, update_missing_not_found [] "999" 999 _ rfl rfl⟩

/-- C5: the logging middleware (modelled from the spec; `routes` in
src/main.go registers no middleware) is a pass-through decorator that
records exactly one (method, path) entry before dispatch: per request the
wrapped pipeline yields exactly the router's store and response plus one
log entry, and over any sequence of requests the log is the initial log
followed by one (method, path) entry per request, in order. -/
theorem logging_middleware_passthrough :
    (∀ req d log, serve req (d, log) =
        (((route d req).1, log ++ [(req.method, req.path)]), (route d req).2)) ∧
    (∀ reqs d log, (runRequests reqs (d, log)).2 =
        log ++ reqs.map (fun req => (req.method, req.path))) := by
  constructor
  · intro req d log
    rfl
  · intro reqs
    induction reqs with
    | nil => intro d log; simp [runRequests]
    | cons r rs ih =>
      intro d log
      simp [runRequests, serve, loggingMiddleware, ih]

/-- A create request for item ⟨101, "Alice", 30⟩, used in witnesses. -/
def reqCreate101 : Request :=
  ⟨.POST, ["items"], encodeItem ⟨101, "Alice", 30⟩⟩

/-- A read request for id 101, used in witnesses. -/
def reqRead101 : Request :=
  ⟨.GET, ["items", "101"], .null⟩

/-- C6: no routed request ever removes a key: any id present in the store
after some prefix of a request sequence is still present after the full
sequence (there is no delete operation). -/
theorem no_request_removes_keys (pre post : List Request) (d : Datastore)
    (log : List LogEntry) (k : Int)
    (h : storeContains (runRequests pre (d, log)).1 k = true) :
    storeContains (runRequests (pre ++ post) (d, log)).1 k = true := by
  rw [runRequests_append]
  induction post generalizing pre with
  | nil => exact h
  | cons r rs ih =>
    have hstep : storeContains (serve r (runRequests pre (d, log))).1.1 k = true := by
      rcases route_store (runRequests pre (d, log)).1 r with heq | ⟨i, it, heq⟩
      · show storeContains (route (runRequests pre (d, log)).1 r).1 k = true
        rw [heq]; exact h
      · show storeContains (route (runRequests pre (d, log)).1 r).1 k = true
        rw [heq]; exact storeContains_storePut_true _ i k it h
    have hx := ih (pre ++ [r]) (by rw [runRequests_append]; exact hstep)
    rw [runRequests_append] at hx
    exact hx

/-- Witness for C6: id 101 stored by the first request survives a further
read request. -/
theorem no_request_removes_keys_holds :
    storeContains (runRequests [reqCreate101] ([], [])).1 101 = true ∧
    storeContains (runRequests ([reqCreate101] ++ [reqRead101]) ([], [])).1 101 = true :=
  ⟨rfl, no_request_removes_keys [reqCreate101] [reqRead101] [] [] 101 rfl⟩

/-- The store-key consistency invariant: every key present in the store
maps to a record whose id field equals that key. -/
def StoreInv (d : Datastore) : Prop :=
  ∀ k it, storeGet d k = some it → it.id = k

theorem storeInv_put (d : Datastore) (i : Int) (it : Item) (hit : it.id = i)
    (h : StoreInv d) : StoreInv (storePut d i it) := by
  intro k x hx
  rw [storeGet_storePut] at hx
  by_cases hk : k = i
  · rw [if_pos hk] at hx
    injection hx with hx
    rw [← hx, hit, hk]
  · rw [if_neg hk] at hx
    exact h k x hx

theorem storeInv_create (d : Datastore) (b : Json) (h : StoreInv d) :
    StoreInv (handleCreateItem d b).1 := by
  unfold handleCreateItem
  split
  · exact h
  · split
    · exact h
    · exact storeInv_put d _ _ rfl h

theorem storeInv_change (d : Datastore) (idStr : String) (b : Json)
    (h : StoreInv d) : StoreInv (handleChangeItem d idStr b).1 := by
  unfold handleChangeItem
  split
  · exact h
  · split
    · split
      · exact h
      · exact storeInv_put d _ _ rfl h
    · exact h

theorem storeInv_route (d : Datastore) (req : Request) (h : StoreInv d) :
    StoreInv (route d req).1 := by
  unfold route
  split
  · exact storeInv_create d req.body h
  · exact h
  · exact storeInv_change d _ req.body h
  all_goals exact h

theorem storeInv_run (reqs : List Request) (st : Datastore × List LogEntry)
    (h : StoreInv st.1) : StoreInv (runRequests reqs st).1 := by
  induction reqs generalizing st with
  | nil => exact h
  | cons r rs ih => exact ih _ (storeInv_route st.1 r h)

/-- C9: starting from the empty store, after any sequence of requests every
key present in the store maps to a record whose id field equals that key
(create stores under the decoded id; update forces the body id to the
path id before storing). -/
theorem store_key_consistency (reqs : List Request) (k : Int) (it : Item)
    (h : storeGet (runRequests reqs ([], [])).1 k = some it) : it.id = k :=
  storeInv_run reqs ([], []) (fun _ _ hx => by simp [storeGet] at hx) k it h

/-- Witness for C9: after creating ⟨101, "Alice", 30⟩ the key 101 holds a
record whose id is 101. -/
theorem store_key_consistency_holds :
    storeGet (runRequests [reqCreate101] ([], [])).1 101 = some ⟨101, "Alice", 30⟩ ∧
    (⟨101, "Alice", 30⟩ : Item).id = 101 :=
  ⟨rfl, store_key_consistency [reqCreate101] 101 ⟨101, "Alice", 30⟩ rfl⟩

/-- A well-formed JSON object body in which each Record field is either
present with a correctly-typed value or omitted: `none` omits the key.
`partialBody none none none` is the empty object `obj []`. -/
def partialBody (idOpt : Option Int) (nameOpt : Option String)
    (ageOpt : Option Int) : Json :=
  .obj ((idOpt.map fun n => ("id", Json.num n)).toList ++
        (nameOpt.map fun s => ("name", Json.str s)).toList ++
        (ageOpt.map fun n => ("age", Json.num n)).toList)

/-- The record such a body decodes to: present fields keep their value,
omitted fields take the Go zero value (id 0, empty name, age 0). -/
def defaulted (idOpt : Option Int) (nameOpt : Option String)
    (ageOpt : Option Int) : Item :=
  ⟨idOpt.getD 0, nameOpt.getD "", ageOpt.getD 0⟩

theorem decodeItem_partialBody (idOpt : Option Int) (nameOpt : Option String)
    (ageOpt : Option Int) :
    decodeItem (partialBody idOpt nameOpt ageOpt) =
      some (defaulted idOpt nameOpt ageOpt) := by
  cases idOpt <;> cases nameOpt <;> cases ageOpt <;> rfl

/-- C10: every well-formed JSON object body that omits some or all Record
fields (each present field correctly typed; `obj []` is the all-omitted
instance) decodes without an InvalidPayload error, the missing fields
defaulting to their zero values (id 0, empty name, age 0), and create on
such a body stores the defaulted record under the defaulted id with 201,
provided that id is not already in use. -/
theorem create_defaults_missing_fields (idOpt : Option Int)
    (nameOpt : Option String) (ageOpt : Option Int) (d : Datastore)
    (hfree : storeContains d (defaulted idOpt nameOpt ageOpt).id = false) :
    decodeItem (partialBody idOpt nameOpt ageOpt) =
      some (defaulted idOpt nameOpt ageOpt) ∧
    handleCreateItem d (partialBody idOpt nameOpt ageOpt) =
      (storePut d (defaulted idOpt nameOpt ageOpt).id (defaulted idOpt nameOpt ageOpt),
        ⟨201, .json (encodeItem (defaulted idOpt nameOpt ageOpt))⟩) := by
  refine ⟨decodeItem_partialBody idOpt nameOpt ageOpt, ?_⟩
  simp [handleCreateItem, decodeItem_partialBody, hfree]

/-- Witness for C10: the body ⟨⟨"id" 7, "age" 3⟩⟩ omitting name, on the
empty store; the stored record is ⟨7, "", 3⟩ under key 7. -/
theorem create_defaults_missing_fields_holds :
    storeContains [] ((defaulted (some 7) none (some 3)).id) = false ∧
    (decodeItem (partialBody (some 7) none (some 3)) =
        some (defaulted (some 7) none (some 3)) ∧
      handleCreateItem [] (partialBody (some 7) none (some 3)) =
        (storePut [] (defaulted (some 7) none (some 3)).id
            (defaulted (some 7) none (some 3)),
          ⟨201, .json (encodeItem (defaulted (some 7) none (some 3)))⟩)) :=
  ⟨rfl, create_defaults_missing_fields (some 7) none (some 3) [] rfl⟩

/-- C8: the drain phase is bounded by the fixed 5-unit budget: an in-flight
request needing more than the budget (the slow handler's 10-unit sleep)
forces a fatal shutdown, while a set of in-flight requests that all finish
within the budget lets the server reach Stopped. -/
theorem drain_within_budget (inflight : List Nat)
    (h : ∀ t ∈ inflight, t ≤ drainTimeout) :
    drain drainTimeout inflight = .Stopped ∧
    drainTimeout < slowDelay ∧
    drain drainTimeout [slowDelay] = .ForcedShutdown := by
  have hall : inflight.all (fun t => t ≤ drainTimeout) = true := by
    rw [List.all_eq_true]
    intro t ht
    exact decide_eq_true (h t ht)
  exact ⟨by simp [drain, hall], by decide, by decide⟩

/-- Witness for C8: in-flight durations 3 and 5 both fit in the budget. -/
theorem drain_within_budget_holds :
    (∀ t ∈ [3, 5], t ≤ drainTimeout) ∧
    (drain drainTimeout [3, 5] = .Stopped ∧ drainTimeout < slowDelay ∧
      drain drainTimeout [slowDelay] = .ForcedShutdown) :=
  ⟨by decide, drain_within_budget [3, 5] (by decide)⟩
